import Mathlib

/-!
Shallow embedding of the parking-facility core of `src/app.js` (state,
fee policy, slot allocation, session lifecycle, persistence, analytics),
together with theorems settling the specification claims.

Modelling conventions:
* JS numbers holding timestamps/durations/fees are modelled as `Int`
  (`Date.now()` values and their differences are integers).
* `Math.ceil(x / k)` on an integer `x` with positive integer literal `k`
  is `(x + k - 1) / k` with Lean's `Int` division (`Int.ediv`, which is
  floor division for a positive divisor); theorems relate it to `⌈·⌉` on `ℚ`.
* The mutable global `STATE` object is passed explicitly; a mutating
  handler becomes a function `ParkingState → ... → ParkingState × result`.
* `localStorage` holds one JSON blob under one key; it is modelled at the
  level of the parsed value: `StoreContent` is either `missing` (no key),
  `malformed` (JSON.parse throws) or a `parsed` object whose fields may be
  absent.  `save` produces the blob that `JSON.stringify` would write.
* Local calendar time is modelled with a fixed UTC offset (no DST): the
  local midnight `i` days before today is `todayStart - i * 86400000`.
-/

namespace Parking

/-- Vehicle / slot categories: the strings 'car', 'bike', 'truck' of `app.js`. -/
inductive VType
  | car
  | bike
  | truck
deriving DecidableEq

/-- The `vehicle` object stored on an occupied slot: `{ number, owner, type }`. -/
structure Vehicle where
  number : String
  owner : String
  type : VType
deriving DecidableEq

/-- A slot of `STATE.slots`: `{ id, type, occupied, vehicle, entryTime }`. -/
structure Slot where
  id : Nat
  type : VType
  occupied : Bool
  vehicle : Option Vehicle
  entryTime : Option Int
deriving DecidableEq

/-- A record of `STATE.history`:
`{ vehicleNumber, owner, type, slotId, entryTime, exitTime, durationMs, fee }`. -/
structure HistoryRecord where
  vehicleNumber : String
  owner : String
  type : VType
  slotId : Nat
  entryTime : Int
  exitTime : Int
  durationMs : Int
  fee : Int
deriving DecidableEq

/-- `STATE.config.fee`: `{ baseMinutes, basePrice, hourlyAfter }`. -/
structure FeeConfig where
  baseMinutes : Int
  basePrice : Int
  hourlyAfter : Int
deriving DecidableEq

/-- `STATE.config`: `{ totalSlots, typesByRow, fee }`. -/
structure Config where
  totalSlots : Nat
  typesByRow : List VType
  fee : FeeConfig
deriving DecidableEq

/-- The global `STATE` object (timers map modelled as the list of slot ids
that currently have an interval handle). -/
structure ParkingState where
  slots : List Slot
  history : List HistoryRecord
  config : Config
  theme : String
  timers : List Nat
deriving DecidableEq

/-- Default fee config of `app.js`: `{ baseMinutes: 30, basePrice: 20, hourlyAfter: 50 }`. -/
def defaultFee : FeeConfig := ⟨30, 20, 50⟩

/-- Default config of `app.js`: 48 slots, `typesByRow = ['car','bike','truck']`. -/
def defaultConfig : Config := ⟨48, [VType.car, VType.bike, VType.truck], defaultFee⟩

/-- The initial value of `STATE` before `boot` runs. -/
def initialState : ParkingState := ⟨[], [], defaultConfig, "dark", []⟩

/-- `computeFee` (app.js lines 26-33):
`minutes = Math.ceil(ms / 60000)`; if `minutes <= baseMinutes` return
`basePrice`; else `basePrice + Math.ceil((minutes - baseMinutes) / 60) * hourlyAfter`.
`Math.ceil(x / k)` on integers is `(x + k - 1) / k` in floor division. -/
def computeFee (cfg : FeeConfig) (ms : Int) : Int :=
  let minutes : Int := (ms + 59999) / 60000
  if minutes ≤ cfg.baseMinutes then cfg.basePrice
  else
    let extraMinutes := minutes - cfg.baseMinutes
    let extraHoursRoundedUp : Int := (extraMinutes + 59) / 60
    cfg.basePrice + extraHoursRoundedUp * cfg.hourlyAfter

/-- Body of `initSlots` (app.js lines 50-56): slots `1..totalSlots`, slot `i`
getting `typesByRow[i % typesByRow.length]`, initially free.  (For an empty
`typesByRow` the JS index would be out of range; `getD` supplies a default,
a case no configuration of the app exercises.) -/
def mkSlots (cfg : Config) : List Slot :=
  (List.range cfg.totalSlots).map fun k =>
    { id := k + 1
      type := cfg.typesByRow.getD ((k + 1) % cfg.typesByRow.length) VType.car
      occupied := false
      vehicle := none
      entryTime := none }

/-- `initSlots` (app.js lines 50-56): `if (STATE.slots.length) return;` then
push the fresh slots. -/
def initSlots (st : ParkingState) : ParkingState :=
  if st.slots.length ≠ 0 then st
  else { st with slots := mkSlots st.config }

/-- The sort comparator `(a,b) => a.id - b.id` of `nearestEmptySlot`. -/
def slotLe (a b : Slot) : Bool := a.id ≤ b.id

/-- `nearestEmptySlot` (app.js lines 58-65): free slots of the same type,
falling back to any free slot; sort ascending by id and take the first. -/
def nearestEmptySlot (slots : List Slot) (t : VType) : Option Slot :=
  let sameType := slots.filter fun s => !s.occupied && s.type == t
  let anyType := slots.filter fun s => !s.occupied
  let pool := if sameType.length ≠ 0 then sameType else anyType
  if pool.length = 0 then none
  else (pool.mergeSort slotLe).head?

/-- The assignments `slot.occupied = true; slot.vehicle = {number, owner, type};
slot.entryTime = Date.now()` (app.js lines 294-296), applied to the slot of
the chosen id (the JS code mutates that slot object in place). -/
def occupy (v : Vehicle) (now : Int) (slotId : Nat) (s : Slot) : Slot :=
  if s.id = slotId then { s with occupied := true, vehicle := some v, entryTime := some now }
  else s

/-- The assignments `s.occupied = false; s.vehicle = null; s.entryTime = null`
(app.js lines 349-351), applied to the slot of the released id. -/
def freeSlot (slotId : Nat) (s : Slot) : Slot :=
  if s.id = slotId then { s with occupied := false, vehicle := none, entryTime := none }
  else s

/-- The successful-submit path of `renderEntryForm` (app.js lines 291-298):
find the nearest empty slot; if none, toast an error and leave the state
alone; otherwise mark it occupied with the vehicle and entry time.  Returns
the new state and the id of the assigned slot (shown in the modal/toast). -/
def parkVehicle (st : ParkingState) (v : Vehicle) (now : Int) : ParkingState × Option Nat :=
  match nearestEmptySlot st.slots v.type with
  | none => (st, none)
  | some slot =>
    ({ st with slots := st.slots.map (occupy v now slot.id) }, some slot.id)

/-- `removeVehicleFlow` (app.js lines 322-373): look the slot up by id;
`if (!s?.occupied) return;` (a silent no-op covering both an unknown id and
a free slot); otherwise unshift a history record built from the slot's
session, free the slot, and clear its timer.  An occupied slot always
carries a vehicle and entry time (the invariant of claim C5); `getD`
totalises the field accesses JS performs directly. -/
def removeVehicleFlow (st : ParkingState) (slotId : Nat) (now : Int) :
    ParkingState × Option HistoryRecord :=
  match st.slots.find? (fun s => s.id = slotId) with
  | none => (st, none)
  | some s =>
    if s.occupied then
      let v := s.vehicle.getD ⟨"", "", VType.car⟩
      let entry := s.entryTime.getD 0
      let duration := now - entry
      let fee := computeFee st.config.fee duration
      let hrec : HistoryRecord :=
        { vehicleNumber := v.number
          owner := v.owner
          type := v.type
          slotId := s.id
          entryTime := entry
          exitTime := now
          durationMs := duration
          fee := fee }
      ({ st with
          history := hrec :: st.history
          slots := st.slots.map (freeSlot slotId)
          timers := st.timers.filter fun t => t ≠ slotId },
        some hrec)
    else (st, none)

/-- The reset handler (app.js lines 127-136): remove the persisted key,
clear slots and history, re-run `initSlots`. -/
def resetData (st : ParkingState) : ParkingState :=
  initSlots { st with slots := [], history := [] }

/-- The object `JSON.parse` yields for the persisted blob; each field the
loader looks at may be absent. -/
structure RawData where
  slots : Option (List Slot)
  history : Option (List HistoryRecord)
  config : Option Config
  theme : Option String
deriving DecidableEq

/-- What `localStorage.getItem('parkingData')` can amount to: no key,
unparseable JSON, or a parsed object. -/
inductive StoreContent
  | missing
  | malformed
  | parsed (d : RawData)
deriving DecidableEq

/-- `load` (app.js lines 36-43): parse the stored blob (a missing key reads
as `'{}'`); if it has both `slots` and `history`, `Object.assign` it over
`STATE` with `timers` cleared; on a parse error the catch block leaves the
state untouched.  The function never throws. -/
def load (st : ParkingState) (stored : StoreContent) : ParkingState :=
  match stored with
  | .missing => st
  | .malformed => st
  | .parsed d =>
    match d.slots, d.history with
    | some sl, some hi =>
      { slots := sl
        history := hi
        config := d.config.getD st.config
        theme := d.theme.getD st.theme
        timers := [] }
    | _, _ => st

/-- `save` (app.js lines 44-47): strip `timers` and stringify the rest;
modelled as the parsed form of the written blob. -/
def save (st : ParkingState) : StoreContent :=
  .parsed ⟨some st.slots, some st.history, some st.config, some st.theme⟩

/-- `boot` (app.js lines 736-742): `load(); initSlots();` starting from the
initial `STATE` literal. -/
def boot (stored : StoreContent) : ParkingState :=
  initSlots (load initialState stored)

/-- One day in milliseconds (`86400000` in `revenueByDay`). -/
def dayMs : Int := 86400000

/-- One `{label, value}` entry pushed by `revenueByDay`; the label is a
rendering of the day, carried here as the day's start instant. -/
structure DayBucket where
  start : Int
  value : Int
deriving DecidableEq

/-- The revenue of one day window (app.js line 651):
`history.filter(h => h.exitTime >= start && h.exitTime <= end).reduce((sum,h) => sum+h.fee, 0)`. -/
def dayRevenue (history : List HistoryRecord) (lo hi : Int) : Int :=
  (history.filter fun h => lo ≤ h.exitTime && h.exitTime ≤ hi).foldl
    (fun sum h => sum + h.fee) 0

/-- One loop iteration of `revenueByDay` (app.js lines 648-652): the local
midnight `i` days back, `end = start + 86400000 - 1`, and the window's
revenue. -/
def dayBucket (history : List HistoryRecord) (todayStart : Int) (i : Int) : DayBucket :=
  let dstart := todayStart - i * dayMs
  { start := dstart, value := dayRevenue history dstart (dstart + dayMs - 1) }

/-- `revenueByDay` (app.js lines 645-655): for `i = days-1` down to `0`,
push the bucket of the day `i` days back.  The downward loop is rendered as
a map over `j = 0, ..., days-1` with `i = days - 1 - j`. -/
def revenueByDay (history : List HistoryRecord) (todayStart : Int) (days : Nat) :
    List DayBucket :=
  (List.range days).map fun (j : Nat) =>
    dayBucket history todayStart ((days : Int) - 1 - (j : Int))

/-! ### Helper lemmas -/

/-- Ceiling of an integer divided by 60000, as Lean floor division. -/
theorem ceil_div_60000 (a : Int) : ⌈(a : ℚ) / 60000⌉ = (a + 59999) / 60000 := by
  have h : ((a : ℚ) / 60000) = -((((-a : Int)) : ℚ) / ((60000 : ℕ) : ℚ)) := by
    push_cast; ring
  rw [h, Int.ceil_neg, Rat.floor_intCast_div_natCast]
  omega

/-- Ceiling of an integer divided by 60, as Lean floor division. -/
theorem ceil_div_60 (a : Int) : ⌈(a : ℚ) / 60⌉ = (a + 59) / 60 := by
  have h : ((a : ℚ) / 60) = -((((-a : Int)) : ℚ) / ((60 : ℕ) : ℚ)) := by
    push_cast; ring
  rw [h, Int.ceil_neg, Rat.floor_intCast_div_natCast]
  omega

/-- The comparator `slotLe` is transitive. -/
theorem slotLe_trans (a b c : Slot) : slotLe a b → slotLe b c → slotLe a c := by
  simp only [slotLe, decide_eq_true_eq]
  omega

/-- The comparator `slotLe` is total. -/
theorem slotLe_total (a b : Slot) : slotLe a b || slotLe b a := by
  simp only [slotLe, Bool.or_eq_true, decide_eq_true_eq]
  omega

/-- The first element of a `slotLe`-sorted copy of a nonempty pool is a
member of the pool with minimal id. -/
theorem head_of_pool {pool : List Slot} (h : pool ≠ []) :
    ∃ s, (pool.mergeSort slotLe).head? = some s ∧ s ∈ pool ∧ ∀ x ∈ pool, s.id ≤ x.id := by
  have hperm : List.Perm (pool.mergeSort slotLe) pool := List.mergeSort_perm pool slotLe
  have hsorted : (pool.mergeSort slotLe).Pairwise (fun a b => slotLe a b = true) :=
    List.sorted_mergeSort slotLe_trans slotLe_total pool
  cases hl : pool.mergeSort slotLe with
  | nil =>
    exfalso
    have := hperm.length_eq
    rw [hl] at this
    exact h (List.length_eq_zero.mp this.symm)
  | cons hd tl =>
    rw [hl] at hperm hsorted
    refine ⟨hd, rfl, hperm.subset (List.mem_cons_self hd tl), ?_⟩
    intro x hx
    have hx' : x ∈ hd :: tl := hperm.symm.subset hx
    rcases List.mem_cons.mp hx' with hEq | hTl
    · subst hEq
      exact Nat.le_refl _
    · have := (List.pairwise_cons.mp hsorted).1 x hTl
      simpa [slotLe] using this

/-- The head of a nonempty list is a member. -/
theorem mem_of_head?_eq {l : List Slot} {s : Slot} (h : l.head? = some s) : s ∈ l := by
  cases l with
  | nil => simp at h
  | cons a t =>
    simp only [List.head?_cons, Option.some.injEq] at h
    subst h
    exact List.mem_cons_self a t

/-- A slot returned by `nearestEmptySlot` is one of the registry's free slots. -/
theorem nearestEmptySlot_mem {slots : List Slot} {t : VType} {s : Slot}
    (h : nearestEmptySlot slots t = some s) : s ∈ slots ∧ s.occupied = false := by
  simp only [nearestEmptySlot] at h
  split at h
  · have hmem := (List.mergeSort_perm _ slotLe).subset (mem_of_head?_eq h)
    have hf := List.mem_filter.mp hmem
    refine ⟨hf.1, ?_⟩
    have hb := hf.2
    simp [Bool.not_eq_true'] at hb
    exact hb.1
  · split at h
    · exact absurd h (by simp)
    · have hmem := (List.mergeSort_perm _ slotLe).subset (mem_of_head?_eq h)
      have hf := List.mem_filter.mp hmem
      refine ⟨hf.1, ?_⟩
      have hb := hf.2
      simpa [Bool.not_eq_true'] using hb

/-- `occupy` never changes a slot's id. -/
theorem occupy_id (v : Vehicle) (now : Int) (i : Nat) (s : Slot) :
    (occupy v now i s).id = s.id := by
  unfold occupy
  split <;> rfl

/-- `freeSlot` never changes a slot's id. -/
theorem freeSlot_id (i : Nat) (s : Slot) : (freeSlot i s).id = s.id := by
  unfold freeSlot
  split <;> rfl

/-- Finding by id commutes with an id-preserving per-slot update. -/
theorem find?_map_of_id (l : List Slot) (i : Nat) (f : Slot → Slot)
    (hf : ∀ x, (f x).id = x.id) :
    (l.map f).find? (fun s => s.id = i) = (l.find? (fun s => s.id = i)).map f := by
  induction l with
  | nil => rfl
  | cons a tl ih =>
    simp only [List.map_cons]
    by_cases h : a.id = i
    · rw [List.find?_cons_of_pos _ (by simp [hf, h]), List.find?_cons_of_pos _ (by simp [h])]
      rfl
    · rw [List.find?_cons_of_neg _ (by simp [hf, h]), List.find?_cons_of_neg _ (by simp [h])]
      exact ih

/-! ### Claims -/

/-- Claim C2: `computeFee` rounds the duration up to whole minutes; a
duration within `baseMinutes` costs `basePrice`, beyond that
`basePrice + ⌈(minutes - baseMinutes)/60⌉ * hourlyRate`, in integer
arithmetic — stated against the mathematical ceiling on `ℚ` — and the five
default-config sample values hold. -/
theorem C2_computeFee_spec :
    (∀ ms : Int, computeFee defaultFee ms =
      (if ⌈(ms : ℚ) / 60000⌉ ≤ 30 then 20
       else 20 + ⌈((⌈(ms : ℚ) / 60000⌉ - 30 : Int) : ℚ) / 60⌉ * 50))
    ∧ computeFee defaultFee 0 = 20
    ∧ computeFee defaultFee (30 * 60000) = 20
    ∧ computeFee defaultFee (31 * 60000) = 70
    ∧ computeFee defaultFee (90 * 60000) = 70
    ∧ computeFee defaultFee (91 * 60000) = 120 := by
  refine ⟨?_, by decide, by decide, by decide, by decide, by decide⟩
  intro ms
  simp only [computeFee, defaultFee, ceil_div_60000, ceil_div_60]

/-- Claim C1: allocation picks the free slot of smallest id among those of
the requested category; with no free slot of that category it picks the
free slot of smallest id overall; with no free slot at all it returns
nothing and `parkVehicle` leaves the state unchanged. -/
theorem C1_allocation (st : ParkingState) (v : Vehicle) (now : Int) :
    ((∃ x ∈ st.slots, x.occupied = false ∧ x.type = v.type) →
      ∃ s, nearestEmptySlot st.slots v.type = some s ∧ s ∈ st.slots ∧ s.occupied = false ∧
        s.type = v.type ∧
        ∀ x ∈ st.slots, x.occupied = false → x.type = v.type → s.id ≤ x.id)
    ∧ ((∀ x ∈ st.slots, x.occupied = false → x.type ≠ v.type) →
       (∃ x ∈ st.slots, x.occupied = false) →
      ∃ s, nearestEmptySlot st.slots v.type = some s ∧ s ∈ st.slots ∧ s.occupied = false ∧
        ∀ x ∈ st.slots, x.occupied = false → s.id ≤ x.id)
    ∧ ((∀ x ∈ st.slots, x.occupied = true) →
      nearestEmptySlot st.slots v.type = none ∧ parkVehicle st v now = (st, none)) := by
  have hmemS : ∀ x, x ∈ st.slots.filter (fun s => !s.occupied && s.type == v.type) ↔
      x ∈ st.slots ∧ x.occupied = false ∧ x.type = v.type := by
    intro x
    simp [List.mem_filter, Bool.not_eq_true']
  have hmemA : ∀ x, x ∈ st.slots.filter (fun s => !s.occupied) ↔
      x ∈ st.slots ∧ x.occupied = false := by
    intro x
    simp [List.mem_filter, Bool.not_eq_true']
  refine ⟨?_, ?_, ?_⟩
  · rintro ⟨x, hx, hocc, hty⟩
    have hne : st.slots.filter (fun s => !s.occupied && s.type == v.type) ≠ [] := by
      intro hnil
      have hins := (hmemS x).mpr ⟨hx, hocc, hty⟩
      rw [hnil] at hins
      simp at hins
    have hlen : (st.slots.filter (fun s => !s.occupied && s.type == v.type)).length ≠ 0 := by
      simpa [List.length_eq_zero] using hne
    obtain ⟨s, hhead, hmem, hmin⟩ := head_of_pool hne
    refine ⟨s, ?_, ?_⟩
    · simp only [nearestEmptySlot]
      simp [hlen, hhead]
    · obtain ⟨h1, h2, h3⟩ := (hmemS s).mp hmem
      exact ⟨h1, h2, h3, fun y hy hyo hyt => hmin y ((hmemS y).mpr ⟨hy, hyo, hyt⟩)⟩
  · rintro hnone ⟨x, hx, hocc⟩
    have hS : st.slots.filter (fun s => !s.occupied && s.type == v.type) = [] := by
      rw [List.eq_nil_iff_forall_not_mem]
      intro y hy
      obtain ⟨h1, h2, h3⟩ := (hmemS y).mp hy
      exact hnone y h1 h2 h3
    have hne : st.slots.filter (fun s => !s.occupied) ≠ [] := by
      intro hnil
      have hins := (hmemA x).mpr ⟨hx, hocc⟩
      rw [hnil] at hins
      simp at hins
    have hlen : (st.slots.filter (fun s => !s.occupied)).length ≠ 0 := by
      simpa [List.length_eq_zero] using hne
    obtain ⟨s, hhead, hmem, hmin⟩ := head_of_pool hne
    refine ⟨s, ?_, ?_⟩
    · simp only [nearestEmptySlot]
      simp [hS, hlen, hhead]
    · obtain ⟨h1, h2⟩ := (hmemA s).mp hmem
      exact ⟨h1, h2, fun y hy hyo => hmin y ((hmemA y).mpr ⟨hy, hyo⟩)⟩
  · intro hall
    have hS : st.slots.filter (fun s => !s.occupied && s.type == v.type) = [] := by
      rw [List.eq_nil_iff_forall_not_mem]
      intro y hy
      obtain ⟨h1, h2, _⟩ := (hmemS y).mp hy
      rw [hall y h1] at h2
      cases h2
    have hA : st.slots.filter (fun s => !s.occupied) = [] := by
      rw [List.eq_nil_iff_forall_not_mem]
      intro y hy
      obtain ⟨h1, h2⟩ := (hmemA y).mp hy
      rw [hall y h1] at h2
      cases h2
    have hres : nearestEmptySlot st.slots v.type = none := by
      simp only [nearestEmptySlot]
      simp [hS, hA]
    exact ⟨hres, by simp [parkVehicle, hres]⟩

/-- Claim C9: `mkSlots` creates exactly `totalSlots` slots, in order, with
ids `1..N`, all free, slot `i` carrying `typesByRow[i % typesByRow.length]`;
and neither parking nor removal ever changes the number of slots. -/
theorem C9_initSlots (cfg : Config) (hlen : 0 < cfg.typesByRow.length) :
    (mkSlots cfg).length = cfg.totalSlots
    ∧ (∀ k (hk : k < (mkSlots cfg).length),
        ((mkSlots cfg).get ⟨k, hk⟩).id = k + 1
        ∧ ((mkSlots cfg).get ⟨k, hk⟩).occupied = false
        ∧ ((mkSlots cfg).get ⟨k, hk⟩).vehicle = none
        ∧ ((mkSlots cfg).get ⟨k, hk⟩).entryTime = none
        ∧ ((mkSlots cfg).get ⟨k, hk⟩).type
            = cfg.typesByRow.get ⟨(k + 1) % cfg.typesByRow.length, Nat.mod_lt _ hlen⟩)
    ∧ (∀ st v now, ((parkVehicle st v now).1).slots.length = st.slots.length)
    ∧ (∀ st i now, ((removeVehicleFlow st i now).1).slots.length = st.slots.length) := by
  refine ⟨by simp [mkSlots], ?_, ?_, ?_⟩
  · intro k hk
    have hk' : k < cfg.totalSlots := by simpa [mkSlots] using hk
    simp [mkSlots, List.get_eq_getElem, List.getD_eq_getElem?_getD,
      List.getElem?_eq_getElem (Nat.mod_lt _ hlen)]
  · intro st v now
    unfold parkVehicle
    cases nearestEmptySlot st.slots v.type <;> simp
  · intro st i now
    unfold removeVehicleFlow
    cases st.slots.find? (fun s => s.id = i) with
    | none => rfl
    | some s =>
      by_cases hocc : s.occupied = true <;> simp [hocc]

/-- Claim C3: after a successful allocation onto slot `i`, releasing slot `i`
succeeds, frees the slot (vehicle and entry time cleared), and prepends
exactly one history record — matching the vehicle's plate, owner and
category and the slot id — to the front of the ledger, which grows by
exactly one. -/
theorem C3_park_then_release (st : ParkingState) (v : Vehicle) (t1 t2 : Int) (i : Nat)
    (hpark : (parkVehicle st v t1).2 = some i) :
    ∃ st2 hrec, removeVehicleFlow (parkVehicle st v t1).1 i t2 = (st2, some hrec)
      ∧ (∀ s ∈ st2.slots, s.id = i → s.occupied = false ∧ s.vehicle = none ∧ s.entryTime = none)
      ∧ st2.history = hrec :: (parkVehicle st v t1).1.history
      ∧ (parkVehicle st v t1).1.history = st.history
      ∧ st2.history.length = st.history.length + 1
      ∧ hrec.vehicleNumber = v.number ∧ hrec.owner = v.owner
      ∧ hrec.type = v.type ∧ hrec.slotId = i := by
  cases hne : nearestEmptySlot st.slots v.type with
  | none => simp [parkVehicle, hne] at hpark
  | some slot =>
    have hi : slot.id = i := by simpa [parkVehicle, hne] using hpark
    subst hi
    obtain ⟨hmem, _⟩ := nearestEmptySlot_mem hne
    have hst1 : (parkVehicle st v t1).1 = { st with slots := st.slots.map (occupy v t1 slot.id) } := by
      simp [parkVehicle, hne]
    have hfindSome : (st.slots.find? (fun s => s.id = slot.id)).isSome := by
      rw [List.find?_isSome]
      exact ⟨slot, hmem, by simp⟩
    obtain ⟨x0, hx0⟩ := Option.isSome_iff_exists.mp hfindSome
    have hx0i : x0.id = slot.id := by simpa using List.find?_some hx0
    have hocc : occupy v t1 slot.id x0
        = { x0 with occupied := true, vehicle := some v, entryTime := some t1 } := by
      simp [occupy, hx0i]
    have hfind : (st.slots.map (occupy v t1 slot.id)).find? (fun s => s.id = slot.id)
        = some { x0 with occupied := true, vehicle := some v, entryTime := some t1 } := by
      rw [find?_map_of_id _ _ _ (occupy_id v t1 slot.id), hx0]
      simp [hocc]
    rw [hst1]
    unfold removeVehicleFlow
    rw [hfind]
    refine ⟨_, _, rfl, ?_, rfl, rfl, by simp, rfl, rfl, rfl, hx0i⟩
    intro s hs hsid
    simp only [List.mem_map] at hs
    obtain ⟨y, _, rfl⟩ := hs
    by_cases hy : y.id = slot.id
    · simp [freeSlot, hy]
    · rw [freeSlot_id] at hsid
      exact absurd hsid hy

/-- A concrete state for claim C4: slot id 1 exists and is free, slot id 2
does not exist, and the ledger is nonempty. -/
def c4State : ParkingState :=
  { slots := [⟨1, VType.car, false, none, none⟩]
    history := [⟨"KA 05 EF 9999", "Meera", VType.car, 10, 0, 10, 10, 20⟩]
    config := defaultConfig
    theme := "dark"
    timers := [] }

/-- Counterexample to claim C4 as stated: the claim demands a slot-not-found
error for an unknown id and a distinct slot-already-empty error for a known
free slot, but `removeVehicleFlow` guards both cases with the single check
`if (!s?.occupied) return;` and returns the one identical silent outcome —
no error value of either kind exists.  Concretely, releasing unknown id 2
and releasing the known free slot 1 produce exactly the same result, a
no-op with no error indication. -/
theorem C4_counterexample :
    removeVehicleFlow c4State 2 1000 = removeVehicleFlow c4State 1 1000
    ∧ removeVehicleFlow c4State 2 1000 = (c4State, none)
    ∧ c4State.slots.find? (fun s => s.id = 2) = none
    ∧ c4State.slots.find? (fun s => s.id = 1) = some ⟨1, VType.car, false, none, none⟩ := by
  decide

/-- Claim C4 (amended): releasing an unknown slot id or a known but
unoccupied slot is rejected by one combined guard as a silent no-op — the
two failure cases are indistinguishable and no error is surfaced — and the
ledger and all slot state are left completely unchanged. -/
theorem C4_release_failure_noop (st : ParkingState) (i : Nat) (t : Int)
    (h : ∀ s ∈ st.slots, s.id = i → s.occupied = false) :
    removeVehicleFlow st i t = (st, none) := by
  unfold removeVehicleFlow
  split
  · rfl
  · rename_i s hfind
    have hs : s ∈ st.slots := List.mem_of_find?_eq_some hfind
    have hsi : s.id = i := by simpa using List.find?_some hfind
    rw [if_neg (by simp [h s hs hsi])]

/-- Witness for the amended C4 at a concrete state, exercising the
unknown-id case. -/
theorem C4_release_failure_noop_witness :
    (∀ s ∈ c4State.slots, s.id = 2 → s.occupied = false)
    ∧ removeVehicleFlow c4State 2 1000 = (c4State, none) :=
  ⟨by decide, C4_release_failure_noop c4State 2 1000 (by decide)⟩

/-- The invariant of claim C5 for one slot: `occupied` exactly when the
session fields (`vehicle`, `entryTime`) are non-null. -/
def slotInv (s : Slot) : Prop :=
  (s.occupied = true ↔ s.vehicle.isSome = true) ∧ (s.occupied = true ↔ s.entryTime.isSome = true)

instance (s : Slot) : Decidable (slotInv s) := by
  unfold slotInv
  infer_instance

/-- The registry-wide invariant of claim C5. -/
def registryInv (st : ParkingState) : Prop := ∀ s ∈ st.slots, slotInv s

instance (st : ParkingState) : Decidable (registryInv st) := by
  unfold registryInv
  exact List.decidableBAll _ _

/-- A slot's immutable identity: its id and category. -/
def slotIdentity (s : Slot) : Nat × VType := (s.id, s.type)

/-- Claim C5: freshly created slots satisfy `occupied == (session fields
non-null)`; the invariant is preserved by parking, removal, loading a saved
snapshot, and reset; and neither parking nor removal ever changes any
slot's id or category. -/
theorem C5_invariant (st st' : ParkingState) (cfg : Config) (v : Vehicle) (i : Nat) (now : Int)
    (h : registryInv st) :
    (∀ s ∈ mkSlots cfg, slotInv s)
    ∧ registryInv (parkVehicle st v now).1
    ∧ registryInv (removeVehicleFlow st i now).1
    ∧ registryInv (load st' (save st))
    ∧ registryInv (resetData st)
    ∧ (parkVehicle st v now).1.slots.map slotIdentity = st.slots.map slotIdentity
    ∧ (removeVehicleFlow st i now).1.slots.map slotIdentity = st.slots.map slotIdentity := by
  have hmk : ∀ cfg2 : Config, ∀ s ∈ mkSlots cfg2, slotInv s := by
    intro cfg2 s hs
    simp only [mkSlots, List.mem_map] at hs
    obtain ⟨k, _, rfl⟩ := hs
    simp [slotInv]
  refine ⟨hmk cfg, ?_, ?_, ?_, ?_, ?_, ?_⟩
  · cases hne : nearestEmptySlot st.slots v.type with
    | none => simpa [parkVehicle, hne] using h
    | some slot =>
      simp only [parkVehicle, hne]
      intro s hs
      simp only [List.mem_map] at hs
      obtain ⟨y, hy, rfl⟩ := hs
      unfold occupy
      split
      · simp [slotInv]
      · exact h y hy
  · unfold removeVehicleFlow
    split
    · exact h
    · split
      · intro x hx
        simp only [List.mem_map] at hx
        obtain ⟨y, hy, rfl⟩ := hx
        unfold freeSlot
        split
        · simp [slotInv]
        · exact h y hy
      · exact h
  · intro s hs
    exact h s (by simpa [load, save] using hs)
  · intro s hs
    have hs' : s ∈ mkSlots st.config := by simpa [resetData, initSlots] using hs
    exact hmk st.config s hs'
  · cases hne : nearestEmptySlot st.slots v.type with
    | none => simp [parkVehicle, hne]
    | some slot =>
      simp only [parkVehicle, hne, List.map_map]
      apply List.map_congr_left
      intro x _
      simp only [Function.comp_apply]
      unfold occupy slotIdentity
      split <;> rfl
  · unfold removeVehicleFlow
    split
    · rfl
    · split
      · simp only [List.map_map]
        apply List.map_congr_left
        intro x _
        simp only [Function.comp_apply]
        unfold freeSlot slotIdentity
        split <;> rfl
      · rfl

/-- A concrete vehicle used to instantiate theorems. -/
def demoVehicle : Vehicle := ⟨"TN 38 AB 1234", "Priya", VType.car⟩

/-- A concrete truck used to instantiate the fallback branch of allocation. -/
def demoTruck : Vehicle := ⟨"TN 39 XY 4321", "Ravi", VType.truck⟩

/-- A small concrete state: slot 1 a free car slot, slot 2 an occupied bike
slot, slot 3 a free car slot. -/
def demoState : ParkingState :=
  { slots := [⟨1, VType.car, false, none, none⟩,
              ⟨2, VType.bike, true, some ⟨"KA 01 CD 5678", "Asha", VType.bike⟩, some 100⟩,
              ⟨3, VType.car, false, none, none⟩]
    history := []
    config := defaultConfig
    theme := "dark"
    timers := [2] }

/-- A concrete state with every slot occupied. -/
def fullState : ParkingState :=
  { slots := [⟨1, VType.car, true, some demoVehicle, some 50⟩,
              ⟨2, VType.bike, true, some ⟨"KA 01 CD 5678", "Asha", VType.bike⟩, some 100⟩]
    history := []
    config := defaultConfig
    theme := "dark"
    timers := [1, 2] }

/-- Claim C10: a successful allocation touches only the chosen slot and
leaves the history (and the rest of the state) unchanged; a successful
release touches only the targeted slot, prepends exactly one record, and
keeps every pre-existing record in order. -/
theorem C10_frame (st : ParkingState) (v : Vehicle) (i j : Nat) (t : Int) :
    ((parkVehicle st v t).2 = some i →
      (parkVehicle st v t).1.history = st.history
      ∧ (parkVehicle st v t).1.timers = st.timers
      ∧ (parkVehicle st v t).1.config = st.config
      ∧ (parkVehicle st v t).1.theme = st.theme
      ∧ (parkVehicle st v t).1.slots.length = st.slots.length
      ∧ ∀ k (hk : k < st.slots.length) (hk2 : k < (parkVehicle st v t).1.slots.length),
          (st.slots.get ⟨k, hk⟩).id ≠ i →
          (parkVehicle st v t).1.slots.get ⟨k, hk2⟩ = st.slots.get ⟨k, hk⟩)
    ∧ (∀ st2 hrec, removeVehicleFlow st j t = (st2, some hrec) →
      st2.history = hrec :: st.history
      ∧ st2.config = st.config
      ∧ st2.theme = st.theme
      ∧ st2.slots.length = st.slots.length
      ∧ ∀ k (hk : k < st.slots.length) (hk2 : k < st2.slots.length),
          (st.slots.get ⟨k, hk⟩).id ≠ j →
          st2.slots.get ⟨k, hk2⟩ = st.slots.get ⟨k, hk⟩) := by
  constructor
  · intro hp
    cases hne : nearestEmptySlot st.slots v.type with
    | none => simp [parkVehicle, hne] at hp
    | some slot =>
      have hi : slot.id = i := by simpa [parkVehicle, hne] using hp
      subst hi
      refine ⟨by simp [parkVehicle, hne], by simp [parkVehicle, hne], by simp [parkVehicle, hne],
        by simp [parkVehicle, hne], by simp [parkVehicle, hne], ?_⟩
      intro k hk hk2 hid
      simp only [parkVehicle, hne, List.get_eq_getElem, List.getElem_map]
      simp only [List.get_eq_getElem] at hid
      unfold occupy
      rw [if_neg hid]
  · intro st2 hrec hrel
    unfold removeVehicleFlow at hrel
    split at hrel
    · simp at hrel
    · split at hrel
      · rw [Prod.mk.injEq] at hrel
        obtain ⟨h1, h2⟩ := hrel
        rw [Option.some.injEq] at h2
        subst h1
        subst h2
        refine ⟨rfl, rfl, rfl, by simp, ?_⟩
        intro k hk hk2 hid
        simp only [List.get_eq_getElem, List.getElem_map] at *
        unfold freeSlot
        rw [if_neg hid]
      · simp at hrel

/-- The state after releasing slot 1 of `fullState` at time 99. -/
def c10State : ParkingState :=
  { slots := [⟨1, VType.car, false, none, none⟩,
              ⟨2, VType.bike, true, some ⟨"KA 01 CD 5678", "Asha", VType.bike⟩, some 100⟩]
    history := [⟨"TN 38 AB 1234", "Priya", VType.car, 1, 50, 99, 49, 20⟩]
    config := defaultConfig
    theme := "dark"
    timers := [2] }

/-- The record produced by releasing slot 1 of `fullState` at time 99. -/
def c10Rec : HistoryRecord := ⟨"TN 38 AB 1234", "Priya", VType.car, 1, 50, 99, 49, 20⟩

unseal List.merge List.mergeSort in
/-- Witness for C10: a concrete allocation leaving the history unchanged
and a concrete release prepending exactly one record. -/
theorem C10_frame_witness :
    ((parkVehicle demoState demoVehicle 5).2 = some 1
      ∧ (parkVehicle demoState demoVehicle 5).1.history = demoState.history)
    ∧ (removeVehicleFlow fullState 1 99 = (c10State, some c10Rec)
      ∧ c10State.history = c10Rec :: fullState.history) :=
  ⟨⟨by decide, ((C10_frame demoState demoVehicle 1 0 5).1 (by decide)).1⟩,
   ⟨by decide, ((C10_frame fullState demoVehicle 0 1 99).2 c10State c10Rec (by decide)).1⟩⟩

unseal List.merge List.mergeSort in
/-- Witness for C3 at a concrete state: park the demo car (slot 1 is
chosen) and release it. -/
theorem C3_park_then_release_witness :
    (parkVehicle demoState demoVehicle 5).2 = some 1
    ∧ ∃ st2 hrec, removeVehicleFlow (parkVehicle demoState demoVehicle 5).1 1 65 = (st2, some hrec)
      ∧ (∀ s ∈ st2.slots, s.id = 1 → s.occupied = false ∧ s.vehicle = none ∧ s.entryTime = none)
      ∧ st2.history = hrec :: (parkVehicle demoState demoVehicle 5).1.history
      ∧ (parkVehicle demoState demoVehicle 5).1.history = demoState.history
      ∧ st2.history.length = demoState.history.length + 1
      ∧ hrec.vehicleNumber = demoVehicle.number ∧ hrec.owner = demoVehicle.owner
      ∧ hrec.type = demoVehicle.type ∧ hrec.slotId = 1 :=
  ⟨by decide, C3_park_then_release demoState demoVehicle 5 65 1 (by decide)⟩

/-- Witness for C5 at a concrete state satisfying the invariant. -/
theorem C5_invariant_witness :
    registryInv demoState ∧ registryInv (parkVehicle demoState demoVehicle 5).1 :=
  ⟨by decide, (C5_invariant demoState fullState defaultConfig demoVehicle 1 5 (by decide)).2.1⟩

unseal List.merge List.mergeSort in
/-- Witness for C1 at concrete states: the matching-category branch, the
fallback branch, and the facility-full branch. -/
theorem C1_allocation_witness :
    ((∃ x ∈ demoState.slots, x.occupied = false ∧ x.type = demoVehicle.type)
      ∧ ∃ s, nearestEmptySlot demoState.slots demoVehicle.type = some s ∧ s ∈ demoState.slots ∧
          s.occupied = false ∧ s.type = demoVehicle.type ∧
          ∀ x ∈ demoState.slots, x.occupied = false → x.type = demoVehicle.type → s.id ≤ x.id)
    ∧ ((∀ x ∈ demoState.slots, x.occupied = false → x.type ≠ demoTruck.type)
      ∧ ∃ s, nearestEmptySlot demoState.slots demoTruck.type = some s ∧ s ∈ demoState.slots ∧
          s.occupied = false ∧
          ∀ x ∈ demoState.slots, x.occupied = false → s.id ≤ x.id)
    ∧ ((∀ x ∈ fullState.slots, x.occupied = true)
      ∧ nearestEmptySlot fullState.slots demoVehicle.type = none
      ∧ parkVehicle fullState demoVehicle 7 = (fullState, none)) :=
  ⟨⟨by decide, (C1_allocation demoState demoVehicle 0).1 (by decide)⟩,
   ⟨by decide, (C1_allocation demoState demoTruck 0).2.1 (by decide) (by decide)⟩,
   ⟨by decide, (C1_allocation fullState demoVehicle 7).2.2 (by decide)⟩⟩

/-- Witness for C9 at the default configuration; with the default category
list the first slot carries the second listed category (`bike`). -/
theorem C9_initSlots_witness :
    0 < defaultConfig.typesByRow.length
    ∧ (mkSlots defaultConfig).length = defaultConfig.totalSlots
    ∧ (mkSlots defaultConfig).head?.map Slot.type = some VType.bike :=
  ⟨by decide, (C9_initSlots defaultConfig (by decide)).1, by decide⟩

/-- Claim C6: loading the snapshot written by `save` reproduces the same
slots (count, per-slot occupancy, categories) and the same ledger records
in the same order, from any pre-state; the timers are never part of the
saved snapshot and are empty after the load. -/
theorem C6_save_load_roundtrip (st st' : ParkingState) :
    (load st' (save st)).slots = st.slots
    ∧ (load st' (save st)).history = st.history
    ∧ (load st' (save st)).slots.length = st.slots.length
    ∧ (load st' (save st)).slots.map Slot.occupied = st.slots.map Slot.occupied
    ∧ (load st' (save st)).slots.map Slot.type = st.slots.map Slot.type
    ∧ (load st' (save st)).timers = []
    ∧ (∀ ts : List Nat, save { st with timers := ts } = save st) :=
  ⟨rfl, rfl, rfl, rfl, rfl, rfl, fun _ => rfl⟩

/-- Claim C7: `load` is a total function (it never throws); on a missing
key, unparseable JSON, or a blob lacking the `slots` or `history` field it
leaves the state untouched, and `boot` then falls back to first-run
initialization: a freshly initialized registry and an empty ledger. -/
theorem C7_load_fallback (st : ParkingState) (d : RawData)
    (hbad : d.slots = none ∨ d.history = none) :
    load st .missing = st
    ∧ load st .malformed = st
    ∧ load st (.parsed d) = st
    ∧ (boot .missing).slots = mkSlots defaultConfig
    ∧ (boot .missing).history = []
    ∧ (boot .malformed).slots = mkSlots defaultConfig
    ∧ (boot .malformed).history = [] := by
  refine ⟨rfl, rfl, ?_, rfl, rfl, rfl, rfl⟩
  obtain ⟨s1, s2, s3, s4⟩ := d
  rcases hbad with h | h
  · simp only at h
    subst h
    rfl
  · simp only at h
    subst h
    cases s1 <;> rfl

/-- Folding fee addition over a list sums the fees. -/
theorem foldl_add_fee (l : List HistoryRecord) (a : Int) :
    l.foldl (fun sum h => sum + h.fee) a = a + (l.map HistoryRecord.fee).sum := by
  induction l generalizing a with
  | nil => simp
  | cons x xs ih => simp [ih, add_assoc]

/-- `dayRevenue` is the sum of the fees of the records in the window. -/
theorem dayRevenue_eq_sum (l : List HistoryRecord) (lo hi : Int) :
    dayRevenue l lo hi =
      ((l.filter fun h => lo ≤ h.exitTime && h.exitTime ≤ hi).map HistoryRecord.fee).sum := by
  unfold dayRevenue
  rw [foldl_add_fee]
  simp

/-- `dayRevenue` as a sum over all records with windowed contributions. -/
theorem dayRevenue_eq_ifsum (l : List HistoryRecord) (lo hi : Int) :
    dayRevenue l lo hi =
      (l.map fun r => if lo ≤ r.exitTime ∧ r.exitTime ≤ hi then r.fee else 0).sum := by
  induction l with
  | nil => simp [dayRevenue]
  | cons r tl ih =>
    rw [dayRevenue_eq_sum] at ih ⊢
    rw [List.filter_cons, List.map_cons, List.sum_cons]
    by_cases hc : lo ≤ r.exitTime ∧ r.exitTime ≤ hi
    · have hb : (decide (lo ≤ r.exitTime) && decide (r.exitTime ≤ hi)) = true := by
        simp [hc.1, hc.2]
      rw [if_pos hb, if_pos hc, List.map_cons, List.sum_cons, ih]
    · have hb : ¬((decide (lo ≤ r.exitTime) && decide (r.exitTime ≤ hi)) = true) := by
        simpa using hc
      rw [if_neg hb, if_neg hc, ih]
      omega

/-- With non-negative fees every day revenue is non-negative. -/
theorem dayRevenue_nonneg (l : List HistoryRecord) (lo hi : Int)
    (hfee : ∀ h ∈ l, 0 ≤ h.fee) : 0 ≤ dayRevenue l lo hi := by
  rw [dayRevenue_eq_sum]
  apply List.sum_nonneg
  intro x hx
  simp only [List.mem_map] at hx
  obtain ⟨r, hr, rfl⟩ := hx
  exact hfee r (List.mem_filter.mp hr).1

/-- Splitting a window at an interior point splits its revenue. -/
theorem dayRevenue_split (l : List HistoryRecord) (lo mid hi : Int)
    (h1 : lo ≤ mid + 1) (h2 : mid ≤ hi) :
    dayRevenue l lo hi = dayRevenue l lo mid + dayRevenue l (mid + 1) hi := by
  simp only [dayRevenue_eq_ifsum]
  induction l with
  | nil => simp
  | cons r tl ih =>
    simp only [List.map_cons, List.sum_cons]
    have hpt : (if lo ≤ r.exitTime ∧ r.exitTime ≤ hi then r.fee else 0)
        = (if lo ≤ r.exitTime ∧ r.exitTime ≤ mid then r.fee else 0)
          + (if mid + 1 ≤ r.exitTime ∧ r.exitTime ≤ hi then r.fee else 0) := by
      by_cases hB : lo ≤ r.exitTime ∧ r.exitTime ≤ mid
      · rw [if_pos ⟨hB.1, le_trans hB.2 h2⟩, if_pos hB, if_neg (by omega)]
        omega
      · by_cases hC : mid + 1 ≤ r.exitTime ∧ r.exitTime ≤ hi
        · rw [if_pos ⟨by omega, hC.2⟩, if_neg hB, if_pos hC]
          omega
        · rw [if_neg (by omega), if_neg hB, if_neg hC]
          omega
    rw [hpt, ih]
    ring

/-- Peeling the oldest bucket off `revenueByDay`. -/
theorem revenueByDay_succ (history : List HistoryRecord) (T : Int) (days : Nat) :
    revenueByDay history T (days + 1)
      = dayBucket history T (days : Int) :: revenueByDay history T days := by
  unfold revenueByDay
  rw [List.range_succ_eq_map]
  rw [List.map_cons, List.map_map]
  congr 1
  · congr 1
    push_cast
    ring
  · apply List.map_congr_left
    intro j hj
    simp only [Function.comp_apply, Nat.succ_eq_add_one]
    congr 1
    push_cast
    ring

/-- The bucket values of `revenueByDay` sum to the revenue of the whole
`days`-day window. -/
theorem revenueByDay_total (history : List HistoryRecord) (T : Int) :
    ∀ days : Nat, 0 < days →
      ((revenueByDay history T days).map DayBucket.value).sum
        = dayRevenue history (T - ((days : Int) - 1) * dayMs) (T + dayMs - 1) := by
  intro days
  induction days with
  | zero => intro h; exact absurd h (lt_irrefl 0)
  | succ n ih =>
    intro _
    rcases Nat.eq_zero_or_pos n with hn | hn
    · subst hn
      rw [revenueByDay_succ]
      have h0 : revenueByDay history T 0 = [] := rfl
      rw [h0]
      simp only [List.map_cons, List.map_nil, List.sum_cons, List.sum_nil, dayBucket, add_zero]
      congr 1
      push_cast
      ring
    · rw [revenueByDay_succ]
      simp only [List.map_cons, List.sum_cons, dayBucket]
      rw [ih hn]
      have hD : dayMs = (86400000 : Int) := rfl
      have harg1 : T - (((n + 1 : ℕ) : Int) - 1) * dayMs = T - (n : Int) * dayMs := by
        push_cast
        ring
      rw [harg1, dayRevenue_split history (T - (n : Int) * dayMs)
        (T - (n : Int) * dayMs + dayMs - 1) (T + dayMs - 1)
        (by simp only [hD]; omega) (by simp only [hD]; omega)]
      have harg2 : T - (n : Int) * dayMs + dayMs - 1 + 1 = T - ((n : Int) - 1) * dayMs := by
        ring
      rw [harg2]

/-- Claim C8: for positive `daysBack`, `revenueByDay` returns exactly
`daysBack` buckets ordered oldest-first (bucket `j` covering the local day
starting `daysBack - 1 - j` days before today); each bucket's value is the
sum of fees of records whose exit time lies in that day's
`[start, start + 86400000 - 1]` window, is zero when no record falls there,
and is non-negative; and the bucket values sum to the revenue of the whole
`daysBack`-day window. -/
theorem C8_revenueByDay (history : List HistoryRecord) (todayStart : Int) (days : Nat)
    (hdays : 0 < days) (hfee : ∀ h ∈ history, 0 ≤ h.fee) :
    (revenueByDay history todayStart days).length = days
    ∧ (∀ j, j < days →
        ∃ b, (revenueByDay history todayStart days)[j]? = some b
          ∧ b.start = todayStart - ((days : Int) - 1 - (j : Int)) * dayMs
          ∧ b.value = dayRevenue history (todayStart - ((days : Int) - 1 - (j : Int)) * dayMs)
              (todayStart - ((days : Int) - 1 - (j : Int)) * dayMs + dayMs - 1)
          ∧ 0 ≤ b.value)
    ∧ ((revenueByDay history todayStart days).map DayBucket.value).sum
        = dayRevenue history (todayStart - ((days : Int) - 1) * dayMs) (todayStart + dayMs - 1) := by
  refine ⟨by simp [revenueByDay], ?_, revenueByDay_total history todayStart days hdays⟩
  intro j hj
  refine ⟨dayBucket history todayStart ((days : Int) - 1 - (j : Int)),
    ?_, rfl, rfl, dayRevenue_nonneg _ _ _ hfee⟩
  unfold revenueByDay
  rw [List.getElem?_map]
  rw [List.getElem?_range hj]
  rfl

/-- Ledger for the C8 witness: one record on each of two consecutive days. -/
def c8Hist : List HistoryRecord :=
  [⟨"TN 38 AB 1234", "Priya", VType.car, 1, 0, 40000000, 40000000, 70⟩,
   ⟨"KA 01 CD 5678", "Asha", VType.bike, 2, 0, 100000000, 100000000, 120⟩]

/-- Witness for C8 over a two-day window at a concrete ledger. -/
theorem C8_revenueByDay_witness :
    ((0 : Nat) < 2 ∧ ∀ h ∈ c8Hist, 0 ≤ h.fee)
    ∧ (revenueByDay c8Hist 86400000 2).length = 2 :=
  ⟨⟨by decide, by decide⟩, (C8_revenueByDay c8Hist 86400000 2 (by decide) (by decide)).1⟩

/-- Witness for C7 at a concrete blob lacking both fields. -/
theorem C7_load_fallback_witness :
    (RawData.slots ⟨none, none, none, none⟩ = none)
    ∧ load initialState (.parsed ⟨none, none, none, none⟩) = initialState :=
  ⟨rfl, (C7_load_fallback initialState ⟨none, none, none, none⟩ (Or.inl rfl)).2.2.1⟩

end Parking
